import Mathlib

/-!
Verification development for the stock_pal backtesting core.

The Python source (src/backend/app/backtest/) is shallowly embedded below:
floating-point numbers are modelled as exact rationals (ℚ), Python dicts as
association lists, datetimes as a record of calendar fields, and code that can
raise an exception returns `Except String α`.  Nondeterministic identifier
strings (uuid-based order/trade ids) carry no information used by any claim
and are omitted from the records.
-/

set_option maxRecDepth 4000
set_option linter.unusedVariables false
set_option linter.unreachableTactic false
set_option linter.unusedTactic false

/- Batteries marks the `Rat` field operations `@[irreducible]`, which blocks
`decide`/`rfl` evaluation of concrete rational arithmetic; restore the
default reducibility so that concrete program runs can be checked by
`decide`. -/
set_option allowUnsafeReducibility true
attribute [semireducible] Rat.mul Rat.inv Rat.add Rat.sub Rat.neg Rat.div

/-- Truncation toward zero, Python's `int(x)` on a float/rational value. -/
def pyInt (q : ℚ) : ℤ :=
  if q ≥ 0 then ⌊q⌋ else -⌊-q⌋

/-- Round a rational to the nearest integer, ties to even
(Python 3 `round` semantics, idealized from binary floats to ℚ). -/
def roundHalfEvenInt (q : ℚ) : ℤ :=
  let f : ℤ := ⌊q⌋
  let frac : ℚ := q - f
  if frac < 1/2 then f
  else if 1/2 < frac then f + 1
  else if f % 2 = 0 then f else f + 1

/-- Python `round(x, 2)`: round to two decimal places, ties to even. -/
def round2 (q : ℚ) : ℚ :=
  (roundHalfEvenInt (q * 100) : ℚ) / 100

/-- A Python `datetime`: calendar day plus an intra-day remainder
(hours/minutes/seconds collapsed into one field, only day-level
comparisons matter to the embedded code). -/
structure PyDateTime where
  year : ℕ
  month : ℕ
  day : ℕ
  tod : ℕ := 0
  deriving DecidableEq, Repr

/-- `datetime(d.year, d.month, d.day)`: normalization to day granularity. -/
def normalizeDay (d : PyDateTime) : PyDateTime :=
  ⟨d.year, d.month, d.day, 0⟩

/-- Lexicographic `<=` on datetimes (Python datetime comparison). -/
def dtLeb (a b : PyDateTime) : Bool :=
  if a.year ≠ b.year then a.year < b.year
  else if a.month ≠ b.month then a.month < b.month
  else if a.day ≠ b.day then a.day < b.day
  else a.tod ≤ b.tod

/-- Lexicographic `<` on datetimes. -/
def dtLtb (a b : PyDateTime) : Bool :=
  dtLeb a b && !(a == b)

/-- A trading calendar: the (finite) set of trading days held by
`TradingCalendar.trading_days`, each normalized to day granularity. -/
def Calendar := List PyDateTime

/-- `TradingCalendar.is_trading_day`: normalize, then set membership. -/
def is_trading_day (cal : Calendar) (d : PyDateTime) : Bool :=
  List.contains cal (normalizeDay d)

/-- `TradingCalendar.get_trading_days_between` (inclusive form), as used by
the IPO-exception check: the calendar days lying in `[start, end]`. -/
def get_trading_days_between (cal : Calendar) (startD endD : PyDateTime) :
    List PyDateTime :=
  cal.filter (fun d => dtLeb (normalizeDay startD) d && dtLeb d (normalizeDay endD))

/-- `OrderSide`. -/
inductive OrderSide where
  | buy
  | sell
  deriving DecidableEq, Repr

/-- `OrderStatus`. -/
inductive OrderStatus where
  | pending
  | filled
  | rejected
  | canceled
  deriving DecidableEq, Repr

/-- `TradingEnvironment` (market, board, channel), three plain strings. -/
structure TradingEnvironment where
  market : String
  board : String
  channel : String := "DIRECT"
  deriving DecidableEq, Repr

/-- `Signal`: strategy output for one bar. -/
structure Signal where
  symbol : String
  date : PyDateTime
  action : ℤ
  price : ℚ
  deriving DecidableEq, Repr

/-- `Order` (uuid-based `order_id` omitted, see module comment). -/
structure Order where
  symbol : String
  side : OrderSide
  quantity : ℤ
  limitPrice : ℚ
  createdAt : PyDateTime
  status : OrderStatus := .pending
  deriving DecidableEq, Repr

/-- `Trade` (uuid-based ids omitted). -/
structure Trade where
  symbol : String
  side : OrderSide
  quantity : ℤ
  price : ℚ
  amount : ℚ
  commission : ℚ
  stampTax : ℚ := 0
  slippage : ℚ := 0
  executedAt : PyDateTime
  deriving DecidableEq, Repr

/-- `Trade.total_cost = amount + commission + stamp_tax`. -/
def Trade.total_cost (t : Trade) : ℚ :=
  t.amount + t.commission + t.stampTax

/-- `Position`. -/
structure Position where
  symbol : String
  quantity : ℤ
  avgCost : ℚ
  currentPrice : ℚ
  buyDate : PyDateTime
  deriving DecidableEq, Repr

/-- `Position.market_value = quantity * current_price`. -/
def Position.market_value (p : Position) : ℚ :=
  (p.quantity : ℚ) * p.currentPrice

/-- `Portfolio` (named `PortfolioSt` in this development): cash plus the
positions dict, modelled as an association list keyed by symbol. -/
structure PortfolioSt where
  cash : ℚ
  positions : List (String × Position) := []
  initialCapital : ℚ
  deriving DecidableEq, Repr

/-- `Portfolio.market_value`: sum of position market values. -/
def PortfolioSt.market_value (p : PortfolioSt) : ℚ :=
  (p.positions.map (fun kv => kv.2.market_value)).sum

/-- `Portfolio.total_equity = cash + market_value`. -/
def PortfolioSt.total_equity (p : PortfolioSt) : ℚ :=
  p.cash + p.market_value

/-- `Portfolio.get_position`: dict lookup. -/
def PortfolioSt.get_position (p : PortfolioSt) (symbol : String) :
    Option Position :=
  (p.positions.find? (fun kv => kv.1 == symbol)).map (·.2)

/-- `Portfolio.has_position`: key present with positive quantity. -/
def PortfolioSt.has_position (p : PortfolioSt) (symbol : String) : Bool :=
  match p.get_position symbol with
  | some pos => pos.quantity > 0
  | none => false

/-- Dict assignment `positions[symbol] = pos` on the association list. -/
def posUpsert (l : List (String × Position)) (symbol : String)
    (pos : Position) : List (String × Position) :=
  if l.any (fun kv => kv.1 == symbol) then
    l.map (fun kv => if kv.1 == symbol then (kv.1, pos) else kv)
  else l ++ [(symbol, pos)]

/-- Dict deletion `del positions[symbol]`. -/
def posErase (l : List (String × Position)) (symbol : String) :
    List (String × Position) :=
  l.filter (fun kv => kv.1 != symbol)

/-- `MarketData`: one bar. -/
structure MarketData where
  symbol : String
  date : PyDateTime
  openP : ℚ
  high : ℚ
  low : ℚ
  close : ℚ
  volume : ℚ
  prevClose : ℚ
  isSuspended : Bool := false
  isLimitUp : Bool := false
  isLimitDown : Bool := false
  boardType : String := "MAIN"
  deriving DecidableEq, Repr

/-- `StockInfo` (listing metadata). -/
structure StockInfo where
  symbol : String
  name : String
  board : String
  ipoDate : Option PyDateTime := none
  deriving DecidableEq, Repr

/-- `PriceLimits`. -/
structure PriceLimits where
  upperLimit : Option ℚ
  lowerLimit : Option ℚ
  hasLimit : Bool
  deriving DecidableEq, Repr

/-- `Commission` fee breakdown. -/
structure Commission where
  brokerFee : ℚ := 0
  stampTax : ℚ := 0
  transferFee : ℚ := 0
  settlementFee : ℚ := 0
  currencyFee : ℚ := 0
  deriving DecidableEq, Repr

/-- `Commission.total`. -/
def Commission.total (c : Commission) : ℚ :=
  c.brokerFee + c.stampTax + c.transferFee + c.settlementFee + c.currencyFee

/-- Tags for the validator's accumulated error messages (the Python code
builds formatted strings; only their presence matters). -/
inductive VError where
  | suspended
  | nonTradingDay
  | tPlus1
  | noPosition
  | limitUp
  | limitDown
  | insufficientFunds
  | insufficientPosition
  deriving DecidableEq, Repr

/-- `ValidationResult`: valid flag plus the error list. -/
structure ValidationResult where
  isValid : Bool
  errors : List VError := []
  deriving DecidableEq, Repr

/-- Python truthiness of an optional float (`None` and `0.0` are falsy). -/
def pyTruthy : Option ℚ → Bool
  | none => false
  | some q => q ≠ 0

/-- `TradingRulesValidator._load_price_limit_rules`: the per-market map
`board → (up%, down%)`; `none` plays the role of the `(None, None)` pairs. -/
def load_price_limit_rules (market : String) : List (String × Option (ℚ × ℚ)) :=
  if market == "CN" then
    [("MAIN", some (10/100, 10/100)),
     ("GEM", some (20/100, 20/100)),
     ("STAR", some (20/100, 20/100)),
     ("BSE", some (30/100, 30/100)),
     ("ST", some (5/100, 5/100))]
  else if market == "HK" then
    [("MAIN", none), ("HK_MAIN", none)]
  else if market == "US" then
    [("NYSE", none), ("NASDAQ", none)]
  else []

/-- `TradingRulesValidator._is_ipo_exception`: new-listing grace window,
counted inclusively in trading days since the IPO date (5 days for
GEM/STAR, 1 day for MAIN, none otherwise). -/
def is_ipo_exception (cal : Calendar) (stockInfo : Option StockInfo)
    (currentDate : Option PyDateTime) (board : String) : Bool :=
  match stockInfo, currentDate with
  | some si, some cur =>
    match si.ipoDate with
    | none => false
    | some ipo =>
      let ipoDays : ℕ :=
        if board == "GEM" || board == "STAR" then 5
        else if board == "MAIN" then 1
        else 0
      if ipoDays == 0 then false
      else (get_trading_days_between cal ipo cur).length ≤ ipoDays
  | _, _ => false

/-- `TradingRulesValidator.get_price_limits`: board rules lookup with silent
fallback to the `"MAIN"` key; a missing `"MAIN"` key is Python's `KeyError`,
modelled as `.error`. -/
def get_price_limits (cal : Calendar) (market : String) (prevClose : ℚ)
    (board : String) (stockInfo : Option StockInfo)
    (currentDate : Option PyDateTime) : Except String PriceLimits :=
  let rules := load_price_limit_rules market
  let board' := if (rules.find? (fun kv => kv.1 == board)).isSome then board
                else "MAIN"
  match rules.find? (fun kv => kv.1 == board') with
  | none => .error "KeyError"
  | some kv =>
    match kv.2 with
    | none => .ok ⟨none, none, false⟩
    | some ud =>
      if is_ipo_exception cal stockInfo currentDate board' then
        .ok ⟨none, none, false⟩
      else
        .ok ⟨some (round2 (prevClose * (1 + ud.1))),
             some (round2 (prevClose * (1 - ud.2))), true⟩

/-- `TradingRulesValidator._validate_not_suspended`. -/
def validate_not_suspended (md : MarketData) : Bool :=
  !md.isSuspended

/-- `TradingRulesValidator._validate_trading_day`. -/
def validate_trading_day (cal : Calendar) (d : PyDateTime) : Bool :=
  is_trading_day cal d

/-- `TradingRulesValidator._validate_t_plus_1`: a sell is rejected when the
held position's buy date, normalized to day granularity, is not strictly
earlier than the (normalized) current date. -/
def validate_t_plus_1 (order : Order) (pf : PortfolioSt)
    (currentDate : PyDateTime) : ValidationResult :=
  if order.side ≠ .sell then ⟨true, []⟩
  else
    match pf.get_position order.symbol with
    | none => ⟨false, [.noPosition]⟩
    | some pos =>
      if dtLeb (normalizeDay currentDate) (normalizeDay pos.buyDate) then
        ⟨false, [.tPlus1]⟩
      else ⟨true, []⟩

/-- `TradingRulesValidator._validate_price_limit`: a buy is rejected on a
limit-up bar and a sell on a limit-down bar, when a limit band is active. -/
def validate_price_limit (cal : Calendar) (market : String) (order : Order)
    (md : MarketData) (stockInfo : Option StockInfo) :
    Except String ValidationResult :=
  match get_price_limits cal market md.prevClose md.boardType stockInfo
      (some md.date) with
  | .error e => .error e
  | .ok pl =>
    if !pl.hasLimit then .ok ⟨true, []⟩
    else if order.side = .buy then
      (if md.isLimitUp then .ok ⟨false, [.limitUp]⟩ else .ok ⟨true, []⟩)
    else if order.side = .sell then
      (if md.isLimitDown then .ok ⟨false, [.limitDown]⟩ else .ok ⟨true, []⟩)
    else .ok ⟨true, []⟩

/-- `TradingRulesValidator._validate_balance`: a buy needs
`cash ≥ quantity * limit_price` (fees not considered); a sell needs a held
position with sufficient quantity. -/
def validate_balance (order : Order) (pf : PortfolioSt) : ValidationResult :=
  if order.side = .buy then
    (if pf.cash < (order.quantity : ℚ) * order.limitPrice then
      ⟨false, [.insufficientFunds]⟩
    else ⟨true, []⟩)
  else if order.side = .sell then
    (match pf.get_position order.symbol with
     | none => ⟨false, [.insufficientPosition]⟩
     | some pos =>
       if pos.quantity < order.quantity then ⟨false, [.insufficientPosition]⟩
       else ⟨true, []⟩)
  else ⟨true, []⟩

/-- `TradingRulesValidator.validate_order`: accumulates (does not
short-circuit) all applicable errors. -/
def validate_order (cal : Calendar) (env : TradingEnvironment) (order : Order)
    (md : MarketData) (pf : PortfolioSt) (currentDate : PyDateTime)
    (stockInfo : Option StockInfo) : Except String ValidationResult :=
  let e1 : List VError := if !validate_not_suspended md then [.suspended] else []
  let e2 : List VError :=
    if !validate_trading_day cal currentDate then [.nonTradingDay] else []
  let e3 : List VError :=
    if order.side = .sell then (validate_t_plus_1 order pf currentDate).errors
    else []
  match validate_price_limit cal env.market order md stockInfo with
  | .error e => .error e
  | .ok plr =>
    let e4 := plr.errors
    let e5 := (validate_balance order pf).errors
    let errors := e1 ++ e2 ++ e3 ++ e4 ++ e5
    .ok ⟨errors.isEmpty, errors⟩

/-- Fee-schedule parameters of `MatchingEngine` (constructor defaults). -/
structure MatchParams where
  slippageBps : ℚ := 5
  commissionRate : ℚ := 3/10000
  minCommission : ℚ := 5
  stampTaxRate : ℚ := 1/1000
  deriving DecidableEq, Repr

/-- `MatchingEngine._calculate_commission`: broker fee with floor, stamp
duty on sells, Shanghai transfer fee, cross-border channel fees. -/
def calculate_commission (env : TradingEnvironment) (mp : MatchParams)
    (order : Order) (amount : ℚ) : Commission :=
  let brokerFee :=
    if amount * mp.commissionRate < mp.minCommission then mp.minCommission
    else amount * mp.commissionRate
  let stampTax := if order.side = .sell then amount * mp.stampTaxRate else 0
  let transferFee :=
    if env.market == "CN" && order.symbol.startsWith "6" then
      amount * (2/100000)
    else 0
  let currencyFee :=
    if env.channel == "CONNECT" && env.market == "HK" then amount * (1/10000)
    else 0
  let settlementFee :=
    if env.channel == "CONNECT" && env.market == "HK" then amount * (2/100000)
    else 0
  { brokerFee := brokerFee, stampTax := stampTax, transferFee := transferFee,
    settlementFee := settlementFee, currencyFee := currencyFee }

/-- `MatchingEngine._can_execute_at_price_limit`: no fill for a buy on a
limit-up bar or a sell on a limit-down bar when a band is active. -/
def can_execute_at_price_limit (cal : Calendar) (env : TradingEnvironment)
    (order : Order) (md : MarketData) (stockInfo : Option StockInfo) :
    Except String Bool :=
  match get_price_limits cal env.market md.prevClose md.boardType stockInfo
      (some md.date) with
  | .error e => .error e
  | .ok pl =>
    if !pl.hasLimit then .ok true
    else if order.side = .buy && md.isLimitUp then .ok false
    else if order.side = .sell && md.isLimitDown then .ok false
    else .ok true

/-- `MatchingEngine._calculate_execution_price`: close ± slippage, clipped
into the active limit band (when the band prices are truthy), rounded to
the cent. -/
def calculate_execution_price (cal : Calendar) (env : TradingEnvironment)
    (mp : MatchParams) (order : Order) (md : MarketData)
    (stockInfo : Option StockInfo) : Except String ℚ :=
  let basePrice := md.close
  let slippageMultiplier := mp.slippageBps / 10000
  let executionPrice :=
    if order.side = .buy then basePrice * (1 + slippageMultiplier)
    else basePrice * (1 - slippageMultiplier)
  match get_price_limits cal env.market md.prevClose md.boardType stockInfo
      (some md.date) with
  | .error e => .error e
  | .ok pl =>
    let executionPrice :=
      if pl.hasLimit then
        if order.side = .buy && pyTruthy pl.upperLimit then
          min executionPrice (pl.upperLimit.getD 0)
        else if order.side = .sell && pyTruthy pl.lowerLimit then
          max executionPrice (pl.lowerLimit.getD 0)
        else executionPrice
      else executionPrice
    .ok (round2 executionPrice)

/-- `MatchingEngine.match_order`: fails closed (`none`) on a suspended bar
or at a blocking price limit; otherwise builds the `Trade` with the fee
breakdown (`commission` is the fee total, stamp duty also recorded apart). -/
def match_order (cal : Calendar) (env : TradingEnvironment) (mp : MatchParams)
    (order : Order) (md : MarketData) (stockInfo : Option StockInfo) :
    Except String (Option Trade) :=
  if md.isSuspended then .ok none
  else
    match can_execute_at_price_limit cal env order md stockInfo with
    | .error e => .error e
    | .ok false => .ok none
    | .ok true =>
      match calculate_execution_price cal env mp order md stockInfo with
      | .error e => .error e
      | .ok executionPrice =>
        let amount := (order.quantity : ℚ) * executionPrice
        let commissionDetail := calculate_commission env mp order amount
        let slippageAmount := |executionPrice - md.close| * (order.quantity : ℚ)
        .ok (some
          { symbol := order.symbol, side := order.side,
            quantity := order.quantity, price := executionPrice,
            amount := amount, commission := commissionDetail.total,
            stampTax := commissionDetail.stampTax,
            slippage := slippageAmount, executedAt := md.date })

/-- Mutable state of one `TradingEngine` across a run. -/
structure EngineState where
  environment : TradingEnvironment
  initialCapital : ℚ
  portfolioSt : PortfolioSt
  orders : List Order := []
  trades : List Trade := []
  equityHistory : List (PyDateTime × ℚ) := []
  deriving DecidableEq, Repr

/-- `TradingEngine.__init__`: fresh portfolio with `cash = initial_capital`
and empty order/trade history. -/
def initEngine (env : TradingEnvironment) (initialCapital : ℚ) : EngineState :=
  { environment := env, initialCapital := initialCapital,
    portfolioSt := { cash := initialCapital, positions := [],
                     initialCapital := initialCapital } }

/-- Dict assignment `equity_history[current_date] = equity`. -/
def histSet (h : List (PyDateTime × ℚ)) (d : PyDateTime) (v : ℚ) :
    List (PyDateTime × ℚ) :=
  if h.any (fun kv => kv.1 = d) then
    h.map (fun kv => if kv.1 = d then (kv.1, v) else kv)
  else h ++ [(d, v)]

/-- `TradingEngine._update_position_prices`: refresh the held position's
mark price from the bar close. -/
def update_position_prices (st : EngineState) (md : MarketData) : EngineState :=
  match st.portfolioSt.get_position md.symbol with
  | none => st
  | some pos =>
    let refreshed : Position :=
      { symbol := pos.symbol, quantity := pos.quantity,
        avgCost := pos.avgCost, currentPrice := md.close,
        buyDate := pos.buyDate }
    let pf :=
      { st.portfolioSt with
        positions := posUpsert st.portfolioSt.positions md.symbol refreshed }
    { st with portfolioSt := pf }

/-- `TradingEngine._update_portfolio`: a buy deducts the full settlement
(`trade.total_cost`) from cash and installs the position; a sell adds
`amount - commission - stamp_tax` to cash and deletes the position. -/
def update_portfolio (st : EngineState) (trade : Trade) (md : MarketData)
    (currentDate : PyDateTime) : EngineState :=
  if trade.side = .buy then
    let newPosition : Position :=
      { symbol := trade.symbol, quantity := trade.quantity,
        avgCost := trade.price, currentPrice := md.close,
        buyDate := currentDate }
    let pf :=
      { st.portfolioSt with
        cash := st.portfolioSt.cash - trade.total_cost,
        positions := posUpsert st.portfolioSt.positions trade.symbol
            newPosition }
    { st with portfolioSt := pf }
  else if trade.side = .sell then
    let totalProceeds := trade.amount - trade.commission - trade.stampTax
    let pf :=
      { st.portfolioSt with
        cash := st.portfolioSt.cash + totalProceeds,
        positions := posErase st.portfolioSt.positions trade.symbol }
    { st with portfolioSt := pf }
  else st

/-- `TradingEngine._execute_order`: validate (TradingRulesValidator), then
match (MatchingEngine), then update the portfolio; a failed gate appends the
order with `REJECTED` status and leaves the portfolio untouched. -/
def execute_order (cal : Calendar) (mp : MatchParams) (st : EngineState)
    (order : Order) (md : MarketData) (currentDate : PyDateTime) :
    Except String (Option Trade × EngineState) :=
  match validate_order cal st.environment order md st.portfolioSt currentDate
      none with
  | .error e => .error e
  | .ok validationResult =>
    if !validationResult.isValid then
      .ok (none, { st with
        orders := st.orders ++ [{ order with status := .rejected }] })
    else
      match match_order cal st.environment mp order md none with
      | .error e => .error e
      | .ok none =>
        .ok (none, { st with
          orders := st.orders ++ [{ order with status := .rejected }] })
      | .ok (some trade) =>
        let st1 := { st with
          orders := st.orders ++ [{ order with status := .filled }],
          trades := st.trades ++ [trade] }
        .ok (some trade, update_portfolio st1 trade md currentDate)

/-- `TradingEngine._process_buy_signal`: skip if already holding; size the
order as all available cash minus twice the estimated commission, divided by
the signal price, truncated down to a multiple of the hardcoded 100-share
lot. -/
def process_buy_signal (cal : Calendar) (mp : MatchParams) (st : EngineState)
    (signal : Signal) (md : MarketData) (currentDate : PyDateTime) :
    Except String (Option Trade × EngineState) :=
  if st.portfolioSt.has_position signal.symbol then .ok (none, st)
  else
    let availableCash := st.portfolioSt.cash
    let estimatedCommission :=
      max (availableCash * mp.commissionRate) mp.minCommission
    let usableCash := availableCash - estimatedCommission * 2
    if usableCash ≤ 0 then .ok (none, st)
    else
      let quantity := pyInt (usableCash / signal.price / 100) * 100
      if quantity ≤ 0 then .ok (none, st)
      else
        execute_order cal mp st
          { symbol := signal.symbol, side := .buy, quantity := quantity,
            limitPrice := signal.price, createdAt := currentDate,
            status := .pending } md currentDate

/-- `TradingEngine._process_sell_signal`: skip if not holding; otherwise a
full-quantity sell order at the signal price. -/
def process_sell_signal (cal : Calendar) (mp : MatchParams) (st : EngineState)
    (signal : Signal) (md : MarketData) (currentDate : PyDateTime) :
    Except String (Option Trade × EngineState) :=
  match st.portfolioSt.get_position signal.symbol with
  | none => .ok (none, st)
  | some pos =>
    execute_order cal mp st
      { symbol := signal.symbol, side := .sell, quantity := pos.quantity,
        limitPrice := signal.price, createdAt := currentDate,
        status := .pending } md currentDate

/-- `TradingEngine.process_signal`: refresh mark prices, record the day's
equity, then dispatch on the signal action (0 hold, 1 buy, -1 sell). -/
def process_signal (cal : Calendar) (mp : MatchParams) (st : EngineState)
    (signal : Signal) (md : MarketData) (currentDate : PyDateTime) :
    Except String (Option Trade × EngineState) :=
  let st1 := update_position_prices st md
  let newHist := histSet st1.equityHistory currentDate st1.portfolioSt.total_equity
  let st2 := { st1 with equityHistory := newHist }
  if signal.action = 0 then .ok (none, st2)
  else if signal.action = 1 then
    process_buy_signal cal mp st2 signal md currentDate
  else if signal.action = -1 then
    process_sell_signal cal mp st2 signal md currentDate
  else .ok (none, st2)

/-- One merged bar/signal row of the orchestrator's prepared frame. -/
structure BarRow where
  date : PyDateTime
  openP : ℚ
  high : ℚ
  low : ℚ
  close : ℚ
  volume : ℚ
  prevClose : ℚ
  isSuspended : Bool := false
  isLimitUp : Bool := false
  isLimitDown : Bool := false
  signal : ℤ
  deriving DecidableEq, Repr

/-- One row of the orchestrator's equity-curve output. -/
structure EquityRecord where
  date : PyDateTime
  equity : ℚ
  cash : ℚ
  positionValue : ℚ
  deriving DecidableEq, Repr

/-- The daily loop of `BacktestOrchestrator.run`: skip non-trading days
(per the orchestrator's own calendar `ocal`), feed each remaining row to
`TradingEngine.process_signal` (whose validator uses the environment's
calendar `vcal`), and append an equity-curve record after each bar. -/
def run_loop (ocal vcal : Calendar) (mp : MatchParams) (symbol board : String)
    (st : EngineState) (rows : List BarRow) :
    Except String (EngineState × List EquityRecord) :=
  match rows with
  | [] => .ok (st, [])
  | row :: rest =>
    if !(is_trading_day ocal row.date) then
      run_loop ocal vcal mp symbol board st rest
    else
      let md : MarketData :=
        { symbol := symbol, date := row.date, openP := row.openP,
          high := row.high, low := row.low, close := row.close,
          volume := row.volume, prevClose := row.prevClose,
          isSuspended := row.isSuspended, isLimitUp := row.isLimitUp,
          isLimitDown := row.isLimitDown, boardType := board }
      let signal : Signal :=
        { symbol := symbol, date := row.date, action := row.signal,
          price := md.close }
      match process_signal vcal mp st signal md row.date with
      | .error e => .error e
      | .ok (_, st') =>
        let record : EquityRecord :=
          { date := row.date, equity := st'.portfolioSt.total_equity,
            cash := st'.portfolioSt.cash,
            positionValue := st'.portfolioSt.market_value }
        match run_loop ocal vcal mp symbol board st' rest with
        | .error e => .error e
        | .ok (stF, records) => .ok (stF, record :: records)

/-- `RiskConfig` (risk_manager.py flavor). -/
structure RiskConfigL where
  maxPositionPct : ℚ := 1
  maxTotalExposure : ℚ := 1
  stopLossPct : Option ℚ := none
  stopProfitPct : Option ℚ := none
  maxDrawdownPct : Option ℚ := none
  maxLeverage : ℚ := 1
  deriving DecidableEq, Repr

/-- `RiskConfig.__post_init__` validation (fails fast at construction). -/
def riskConfigValid (c : RiskConfigL) : Bool :=
  (0 < c.maxPositionPct && c.maxPositionPct ≤ 1) &&
  (0 < c.maxTotalExposure && c.maxTotalExposure ≤ 1) &&
  (match c.stopLossPct with | none => true | some v => 0 < v && v < 1) &&
  (match c.stopProfitPct with | none => true | some v => 0 < v) &&
  (match c.maxDrawdownPct with | none => true | some v => 0 < v && v < 1)

/-- `RiskCheckStatus`. -/
inductive RiskCheckStatus where
  | passed
  | rejected
  deriving DecidableEq, Repr

/-- The order dict handed to `RiskManager.check_order_risk`. -/
structure RiskOrder where
  symbol : String
  shares : ℤ
  price : ℚ
  deriving DecidableEq, Repr

/-- One entry of the `positions` snapshot dict. -/
structure RiskPos where
  shares : ℤ
  costPrice : ℚ
  deriving DecidableEq, Repr

/-- The portfolio snapshot dict handed to `RiskManager`. -/
structure RiskSnapshot where
  totalEquity : ℚ
  cash : ℚ
  positions : List (String × RiskPos) := []
  currentPrices : List (String × ℚ) := []
  deriving DecidableEq, Repr

/-- `RiskManager._check_position_limit`. -/
def check_position_limit (cfg : RiskConfigL) (order : RiskOrder)
    (snapshot : RiskSnapshot) : RiskCheckStatus :=
  let currentPositionValue : ℚ :=
    match snapshot.positions.find? (fun kv => kv.1 == order.symbol) with
    | some kv => (kv.2.shares : ℚ) * order.price
    | none => 0
  let orderValue := (order.shares : ℚ) * order.price
  let newPositionPct := (currentPositionValue + orderValue) / snapshot.totalEquity
  if newPositionPct > cfg.maxPositionPct then .rejected else .passed

/-- `RiskManager._check_exposure_limit`. -/
def check_exposure_limit (cfg : RiskConfigL) (order : RiskOrder)
    (snapshot : RiskSnapshot) : RiskCheckStatus :=
  let orderValue := (order.shares : ℚ) * order.price
  let currentTotalValue : ℚ :=
    (snapshot.positions.map (fun kv =>
      let price :=
        match snapshot.currentPrices.find? (fun p => p.1 == kv.1) with
        | some p => p.2
        | none => kv.2.costPrice
      (kv.2.shares : ℚ) * price)).sum
  let newExposure := (currentTotalValue + orderValue) / snapshot.totalEquity
  if newExposure > cfg.maxTotalExposure then .rejected else .passed

/-- `RiskManager.check_order_risk`: single-position cap, then total
exposure cap. -/
def check_order_risk (cfg : RiskConfigL) (order : RiskOrder)
    (snapshot : RiskSnapshot) : RiskCheckStatus :=
  match check_position_limit cfg order snapshot with
  | .rejected => .rejected
  | .passed => check_exposure_limit cfg order snapshot

/-- Keyword parameters accepted by `TradingEngine.__init__`
(trading_engine.py lines 40-48). -/
def trading_engine_init_params : List String :=
  ["environment", "initial_capital", "commission_rate", "min_commission",
   "slippage_bps", "stamp_tax_rate"]

/-- Keyword arguments `BacktestOrchestrator.__init__` passes to the
`TradingEngine` constructor (orchestrator.py lines 57-65). -/
def orchestrator_engine_call_kwargs : List String :=
  ["environment", "initial_capital", "commission_rate", "min_commission",
   "slippage_bps", "stamp_tax_rate", "risk_config"]

/-- Python call semantics: a call raises `TypeError` when it passes a
keyword the callee does not accept. -/
def py_call_raises_type_error (accepted kwargs : List String) : Bool :=
  kwargs.any (fun k => !(List.contains accepted k))

/-- `BacktestOrchestrator.__init__` up to the `TradingEngine(...)` call: it
always forwards `risk_config=` (whatever its value), so construction raises
`TypeError` exactly when that keyword is not accepted.  Run-loop bars are
only processed by `run`, which needs a constructed orchestrator. -/
def orchestrator_construct (riskConfig : Option RiskConfigL) :
    Except String Unit :=
  if py_call_raises_type_error trading_engine_init_params
      orchestrator_engine_call_kwargs then
    .error "TypeError"
  else .ok ()

/-- Arithmetic mean of a list of rationals (ℚ division; callers guard the
empty case). -/
def meanQ (l : List ℚ) : ℚ :=
  l.sum / (l.length : ℚ)

/-- Sample variance with one delta degree of freedom, i.e. the square of
pandas `Series.std()`; `none` models the NaN produced on fewer than two
samples. -/
def sampleVarQ (l : List ℚ) : Option ℚ :=
  if l.length < 2 then none
  else
    let m := meanQ l
    some (((l.map (fun x => (x - m) ^ 2)).sum) / ((l.length : ℚ) - 1))

/-- Outcome of `MetricsCalculator.sortino_ratio`, with the irrational parts
kept symbolic: `value num denomSq` denotes the returned float
`sqrt 252 * num / sqrt denomSq`; since `x ↦ x^2` is injective on the
nonnegative reals, comparing `denomSq` is equivalent to comparing the
standard deviation itself, and the guard `std < 1e-10` is exactly
`denomSq < 1e-20`. `nan` models the NaN that a one-element downside series
produces (pandas std with ddof=1). -/
inductive SortinoOutcome where
  | zero
  | nan
  | value (num : ℚ) (denomSq : ℚ)
  deriving DecidableEq, Repr

/-- `MetricsCalculator.sortino_ratio`: mean excess return over the standard
deviation of the NEGATIVE RAW returns (`returns[returns < 0]`), returning 0
when there are no negative returns or the deviation is 0 or below 1e-10. -/
def sortinoOutcome (returns : List ℚ) (riskFreeRate : ℚ) : SortinoOutcome :=
  if returns.length < 2 then .zero
  else
    let dailyRf := riskFreeRate / 252
    let excessReturns := returns.map (fun r => r - dailyRf)
    let downsideReturns := returns.filter (fun r => r < 0)
    if downsideReturns.length = 0 then .zero
    else
      match sampleVarQ downsideReturns with
      | none => .nan
      | some v =>
        if v = 0 ∨ v < 1/10^20 then .zero
        else .value (meanQ excessReturns) v

/-- Modelled from the spec: `C5`'s reading of the Sortino denominator — the
standard deviation of the negative EXCESS returns (returns minus the daily
risk-free rate), with the same zero-guard.  To be compared with
`sortinoOutcome`, which is translated from metrics.py. -/
def sortinoOutcomeSpecClaim (returns : List ℚ) (riskFreeRate : ℚ) :
    SortinoOutcome :=
  if returns.length < 2 then .zero
  else
    let dailyRf := riskFreeRate / 252
    let excessReturns := returns.map (fun r => r - dailyRf)
    let downsideReturns := excessReturns.filter (fun r => r < 0)
    if downsideReturns.length = 0 then .zero
    else
      match sampleVarQ downsideReturns with
      | none => .nan
      | some v =>
        if v = 0 ∨ v < 1/10^20 then .zero
        else .value (meanQ excessReturns) v

/-- One entry of `GridSearchOptimizer.optimize`'s `all_results` list, for a
two-parameter grid.  `score = none` encodes the float `-inf` recorded for a
failed or constraint-violating combination (and `metrics.get`'s `-inf`
default); `failed` marks a caught per-combination exception. -/
structure GridEntry where
  px : ℚ
  py : ℚ
  score : Option ℚ
  failed : Bool
  deriving DecidableEq, Repr

/-- `itertools.product` over the two parameter value lists, first parameter
outermost (`GridSearchOptimizer._generate_combinations`). -/
def grid_combinations (xs ys : List ℚ) : List (ℚ × ℚ) :=
  xs.flatMap (fun x => ys.map (fun y => (x, y)))

/-- The `all_results` accumulation of `GridSearchOptimizer.optimize`: one
entry per combination; a combination whose backtest raises is caught and
recorded with score `-inf` (`none`); a combination failing the caller's
constraints has its score forced to `-inf`.  The per-combination backtest
and the constraint check are the caller-supplied `runner`/`okC`. -/
def grid_all_results (xs ys : List ℚ)
    (runner : ℚ × ℚ → Except String (List (String × ℚ)))
    (metric : String) (okC : List (String × ℚ) → Bool) : List GridEntry :=
  (grid_combinations xs ys).map (fun p =>
    match runner p with
    | .error _ => { px := p.1, py := p.2, score := none, failed := true }
    | .ok metrics =>
      let s : Option ℚ :=
        (metrics.find? (fun kv => kv.1 == metric)).map (fun kv => kv.2)
      let s := if okC metrics then s else none
      { px := p.1, py := p.2, score := s, failed := false })

/-- `GridSearchOptimizer._generate_heatmap_data` for the two-parameter
case: rows indexed by the sorted second-parameter values, columns by the
sorted first-parameter values; a cell is the first matching combination's
score, with `-inf` (and a missing combination) rendered as null (`none`). -/
def grid_heatmap (xs ys : List ℚ) (results : List GridEntry) :
    List (List (Option ℚ)) :=
  let xValues := xs.mergeSort (fun a b => a ≤ b)
  let yValues := ys.mergeSort (fun a b => a ≤ b)
  yValues.map (fun y => xValues.map (fun x =>
    match results.find? (fun r => r.px = x && r.py = y) with
    | some r => r.score
    | none => none))

/-- `LotSizeRules.HK_STOCK_LOT_SIZES`: per-symbol lot sizes for Hong Kong
listings. -/
def hk_stock_lot_sizes : List (String × ℤ) :=
  [("00700", 100), ("09988", 100), ("03690", 100), ("01810", 200),
   ("09618", 100), ("01024", 100), ("09999", 100), ("09888", 100),
   ("09626", 100), ("09961", 100), ("00005", 400), ("00941", 500),
   ("01398", 1000), ("03988", 500), ("01288", 500), ("00939", 500)]

/-- `LotSizeRules.DEFAULT_LOT_SIZES`. -/
def default_lot_sizes : List (String × ℤ) :=
  [("CN", 100), ("HK", 100), ("US", 1)]

/-- Python `str.zfill`. -/
def zfill (s : String) (n : ℕ) : String :=
  if s.length ≥ n then s
  else String.mk (List.replicate (n - s.length) '0') ++ s

/-- `LotSizeRules.get_lot_size`: strip exchange suffixes, consult the
per-symbol HK table (Python truthiness on the looked-up value), then the
per-market default with a final fallback of 100. -/
def get_lot_size (symbol market : String) : ℤ :=
  let cleanSymbol :=
    ((symbol.replace ".HK" "").replace ".SH" "").replace ".SZ" ""
  let defaultAnswer : ℤ :=
    match default_lot_sizes.find? (fun kv => kv.1 == market) with
    | some kv => kv.2
    | none => 100
  if market == "HK" then
    let cleanSymbol :=
      if cleanSymbol.length > 0 && cleanSymbol.all Char.isDigit then
        zfill cleanSymbol 5
      else cleanSymbol
    match hk_stock_lot_sizes.find? (fun kv => kv.1 == cleanSymbol) with
    | some kv => if kv.2 ≠ 0 then kv.2 else defaultAnswer
    | none => defaultAnswer
  else defaultAnswer

deriving instance DecidableEq for Except

/-- CN main-board environment used by the concrete scenarios. -/
def cnEnv : TradingEnvironment := { market := "CN", board := "MAIN" }

/-- Concrete trading days for the scenarios (a Mon/Tue/Wed). -/
def day0 : PyDateTime := ⟨2024, 1, 8, 0⟩

def day1 : PyDateTime := ⟨2024, 1, 9, 0⟩

def day2 : PyDateTime := ⟨2024, 1, 10, 0⟩

/-- A three-day calendar containing the scenario dates. -/
def cal3 : Calendar := [day0, day1, day2]

/-- Scenario: a buy signal at close 10.02 on a plain CN main-board bar. -/
def c1Md : MarketData :=
  { symbol := "000001", date := day0, openP := 501/50, high := 501/50,
    low := 501/50, close := 501/50, volume := 1000000, prevClose := 501/50 }

def c1Sig : Signal :=
  { symbol := "000001", date := day0, action := 1, price := 501/50 }

/-- Result of processing `c1Sig` from a fresh engine with 100000 capital. -/
def c1Run : Except String (Option Trade × EngineState) :=
  process_signal cal3 {} (initEngine cnEnv 100000) c1Sig c1Md day0

def c1Filled : Bool :=
  match c1Run with
  | .ok (some _, _) => true
  | _ => false

def c1CashAfter : ℚ :=
  match c1Run with
  | .ok (_, st) => st.portfolioSt.cash
  | .error _ => 0

/-- Quantity of the single order the engine records in the `c1Run`
scenario. -/
def c1OrderQty : ℤ :=
  match c1Run with
  | .ok (_, st) =>
    match st.orders with
    | [o] => o.quantity
    | _ => 0
  | .error _ => 0

/-- A risk configuration capping any single position at 5% of equity. -/
def c1Cfg : RiskConfigL := { maxPositionPct := 1/20 }

/-- Scenario: a buy signal at close 99.94 (so that the sized order uses up
esentially all cash) on a Shanghai symbol that also pays the transfer
fee. -/
def c2Md : MarketData :=
  { symbol := "600000", date := day0, openP := 4997/50, high := 4997/50,
    low := 4997/50, close := 4997/50, volume := 1000000, prevClose := 4997/50 }

def c2Sig : Signal :=
  { symbol := "600000", date := day0, action := 1, price := 4997/50 }

def c2Run : Except String (Option Trade × EngineState) :=
  process_signal cal3 {} (initEngine cnEnv 100000) c2Sig c2Md day0

def c2Filled : Bool :=
  match c2Run with
  | .ok (some _, _) => true
  | _ => false

def c2CashAfter : ℚ :=
  match c2Run with
  | .ok (_, st) => st.portfolioSt.cash
  | .error _ => 0

/-- A hold bar row used by the run-loop witnesses. -/
def holdRow : BarRow :=
  { date := day0, openP := 10, high := 10, low := 10, close := 10,
    volume := 1, prevClose := 10, signal := 0 }

/-- A second hold bar row. -/
def holdRow1 : BarRow :=
  { date := day1, openP := 11, high := 11, low := 11, close := 11,
    volume := 1, prevClose := 10, signal := 0 }

/-- A concrete buy trade used by the settlement-deduction witness. -/
def c2wTrade : Trade :=
  { symbol := "600000", side := .buy, quantity := 100, price := 10,
    amount := 1000, commission := 5, stampTax := 0, executedAt := day0 }

/-- Gate-failure scenario: a suspended bar. -/
def gfMd : MarketData :=
  { symbol := "600000", date := day0, openP := 10, high := 10, low := 10,
    close := 10, volume := 1, prevClose := 10, isSuspended := true }

def gfOrder : Order :=
  { symbol := "600000", side := .buy, quantity := 100, limitPrice := 10,
    createdAt := day0 }

def gfSt : EngineState := initEngine cnEnv 100000

/-- The state the engine reaches after the suspended-bar order is
rejected. -/
def gfStAfter : EngineState :=
  { gfSt with orders := [{ gfOrder with status := .rejected }] }

/-- Sizing scenario for the lot-size witness: buy signal at price 10 on a
suspended bar (the order is created, sized, and then rejected). -/
def c8Sig : Signal :=
  { symbol := "600000", date := day0, action := 1, price := 10 }

def c8Order : Order :=
  { symbol := "600000", side := .buy, quantity := 9900, limitPrice := 10,
    createdAt := day0, status := .rejected }

def c8StAfter : EngineState := { gfSt with orders := [c8Order] }

/-- Held-position scenario for the T+1 witness: 1000 shares bought on
`day0`, sold the next trading day. -/
def c3Pos : Position :=
  { symbol := "600000", quantity := 1000, avgCost := 10, currentPrice := 10,
    buyDate := day0 }

def c3Pf : PortfolioSt :=
  { cash := 0, positions := [("600000", c3Pos)], initialCapital := 100000 }

def c3Order : Order :=
  { symbol := "600000", side := .sell, quantity := 1000, limitPrice := 10,
    createdAt := day1 }

def c3MdSell : MarketData :=
  { symbol := "600000", date := day1, openP := 10, high := 10, low := 10,
    close := 10, volume := 1, prevClose := 10 }

/-- Listing metadata of a GEM stock that listed on `day0` (inside the
five-trading-day grace window on `day1`). -/
def c4Si : StockInfo :=
  { symbol := "300001", name := "n", board := "GEM", ipoDate := some day0 }

/-- A grid-search runner whose backtest always raises. -/
def c7Runner : ℚ × ℚ → Except String (List (String × ℚ)) :=
  fun _ => .error "boom"

/-- A constraint check that accepts everything. -/
def c7Ok : List (String × ℚ) → Bool := fun _ => true

/-- Final engine state of a two-bar all-hold run started with 5000. -/
def c6StF : EngineState :=
  { initEngine cnEnv 5000 with
    equityHistory := [(day0, 5000), (day1, 5000)] }

/-- Equity records of that all-hold run. -/
def c6Recs : List EquityRecord :=
  [⟨day0, 5000, 5000, 0⟩, ⟨day1, 5000, 5000, 0⟩]

/-- The two all-hold bar rows. -/
def c6Rows : List BarRow := [holdRow, holdRow1]

/-- Final engine state of a one-bar all-hold run started with 1000. -/
def c2wSt : EngineState :=
  { initEngine cnEnv 1000 with equityHistory := [(day0, 1000)] }

/-- The equity record of that run. -/
def c2wRec : EquityRecord := ⟨day0, 1000, 1000, 0⟩

lemma dtLeb_refl (a : PyDateTime) : dtLeb a a = true := by
  simp [dtLeb]

/-- Characterization of `dtLeb` as a lexicographic comparison of the
calendar fields. -/
lemma dtLeb_iff (a b : PyDateTime) :
    dtLeb a b = true ↔
      (a.year < b.year ∨ (a.year = b.year ∧
        (a.month < b.month ∨ (a.month = b.month ∧
          (a.day < b.day ∨ (a.day = b.day ∧ a.tod ≤ b.tod)))))) := by
  simp only [dtLeb]
  by_cases h1 : a.year = b.year <;> by_cases h2 : a.month = b.month <;>
    by_cases h3 : a.day = b.day <;> simp [h1, h2, h3] <;> omega

lemma dtLeb_total (a b : PyDateTime) : dtLeb a b = true ∨ dtLeb b a = true := by
  simp only [dtLeb_iff]
  omega

lemma dtLeb_antisymm (a b : PyDateTime) (h1 : dtLeb a b = true)
    (h2 : dtLeb b a = true) : a = b := by
  cases a with
  | mk ay am ad at' =>
    cases b with
    | mk byy bm bd bt =>
      simp only [dtLeb_iff] at h1 h2
      simp only [PyDateTime.mk.injEq]
      omega

/-- Totality link between the strict and non-strict date comparisons:
`a <= b` holds exactly when `b < a` fails. -/
lemma dtLeb_eq_not_dtLtb (a b : PyDateTime) : dtLeb a b = !dtLtb b a := by
  simp only [dtLtb]
  cases hq : dtLeb a b <;> cases hp : dtLeb b a
  · rcases dtLeb_total a b with h | h <;> simp_all
  · have hne : ¬(b = a) := by
      intro e
      subst e
      rw [dtLeb_refl] at hq
      simp at hq
    simp [beq_eq_false_iff_ne, hne]
  · simp
  · have h := dtLeb_antisymm a b hq hp
    subst h
    simp

/-- In the CN market `get_price_limits` never raises: the rule table always
has the `"MAIN"` fallback key. -/
lemma get_price_limits_cn_ok (cal : Calendar) (prev : ℚ) (board : String)
    (si : Option StockInfo) (cd : Option PyDateTime) :
    ∃ pl, get_price_limits cal "CN" prev board si cd = .ok pl := by
  unfold get_price_limits
  cases h : (load_price_limit_rules "CN").find? (fun kv => kv.1 == board) with
  | none =>
    simp only [h, Option.isSome_none, Bool.false_eq_true, if_false]
    have hM : (load_price_limit_rules "CN").find? (fun kv => kv.1 == "MAIN") =
        some ("MAIN", some (10/100, 10/100)) := rfl
    rw [hM]
    by_cases hipo : is_ipo_exception cal si cd "MAIN"
    · exact ⟨⟨none, none, false⟩, by simp [hipo]⟩
    · exact ⟨⟨some (round2 (prev * (1 + 10/100))),
        some (round2 (prev * (1 - 10/100))), true⟩, by simp [hipo]⟩
  | some kv =>
    simp only [h, Option.isSome_some, if_true]
    cases hv : kv.2 with
    | none => exact ⟨⟨none, none, false⟩, by simp⟩
    | some ud =>
      by_cases hipo : is_ipo_exception cal si cd board
      · exact ⟨⟨none, none, false⟩, by simp [hipo]⟩
      · exact ⟨⟨some (round2 (prev * (1 + ud.1))),
          some (round2 (prev * (1 - ud.2))), true⟩, by simp [hipo]⟩

/-- A CN sell order on a bar that is not limit-down always passes the
price-limit check. -/
lemma validate_price_limit_cn_sell_ok (cal : Calendar) (order : Order)
    (md : MarketData) (si : Option StockInfo)
    (hside : order.side = .sell) (hld : md.isLimitDown = false) :
    validate_price_limit cal "CN" order md si = .ok ⟨true, []⟩ := by
  unfold validate_price_limit
  obtain ⟨pl, hpl⟩ :=
    get_price_limits_cn_ok cal md.prevClose md.boardType si (some md.date)
  rw [hpl]
  by_cases hh : pl.hasLimit
  · simp [hh, hside, hld]
  · simp [hh]

/-- C3: for a sell order on a held position, the T+1 check rejects the
order exactly when the position's buy date, compared at day granularity, is
not strictly earlier than the current simulated date; and a sell on a
strictly later day with sufficient quantity passes the whole CN validation
absent other violations (not suspended, trading day, not limit-down). -/
theorem sell_t_plus_1_day_granularity :
    (∀ (order : Order) (pf : PortfolioSt) (cur : PyDateTime) (pos : Position),
      order.side = .sell →
      pf.get_position order.symbol = some pos →
      ((validate_t_plus_1 order pf cur).isValid = false ↔
        dtLtb (normalizeDay pos.buyDate) (normalizeDay cur) = false))
    ∧ (∀ (cal : Calendar) (env : TradingEnvironment) (order : Order)
        (md : MarketData) (pf : PortfolioSt) (cur : PyDateTime)
        (pos : Position),
      env.market = "CN" →
      order.side = .sell →
      pf.get_position order.symbol = some pos →
      md.isSuspended = false →
      is_trading_day cal cur = true →
      md.isLimitDown = false →
      order.quantity ≤ pos.quantity →
      dtLtb (normalizeDay pos.buyDate) (normalizeDay cur) = true →
      validate_order cal env order md pf cur none = .ok ⟨true, []⟩) := by
  constructor
  · intro order pf cur pos hside hpos
    unfold validate_t_plus_1
    rw [hside, hpos]
    cases hdt : dtLtb (normalizeDay pos.buyDate) (normalizeDay cur) <;>
      simp [dtLeb_eq_not_dtLtb, hdt]
  · intro cal env order md pf cur pos hmkt hside hpos hsusp htd hld hqty hlt
    have h3 : validate_t_plus_1 order pf cur = ⟨true, []⟩ := by
      unfold validate_t_plus_1
      have hc : dtLeb (normalizeDay cur) (normalizeDay pos.buyDate) = false := by
        rw [dtLeb_eq_not_dtLtb, hlt]
        rfl
      rw [hside, hpos]
      simp [hc]
    have h5 : validate_balance order pf = ⟨true, []⟩ := by
      unfold validate_balance
      rw [hside]
      simp only [reduceCtorEq, if_false, hpos]
      have : ¬(pos.quantity < order.quantity) := not_lt.mpr hqty
      simp [this]
    unfold validate_order
    rw [hmkt, validate_price_limit_cn_sell_ok cal order md none hside hld]
    simp [validate_not_suspended, validate_trading_day, hsusp, htd, hside,
      h3, h5]

/-- Witness for C3 at a concrete held position (bought on day 0, sold on
day 1 with exactly the held quantity). -/
theorem sell_t_plus_1_day_granularity_witness :
    ((validate_t_plus_1 c3Order c3Pf day1).isValid = false ↔
      dtLtb (normalizeDay c3Pos.buyDate) (normalizeDay day1) = false)
    ∧ validate_order cal3 cnEnv c3Order c3MdSell c3Pf day1 none =
        .ok ⟨true, []⟩ := by
  constructor
  · exact sell_t_plus_1_day_granularity.1 c3Order c3Pf day1 c3Pos rfl
      (by decide)
  · exact sell_t_plus_1_day_granularity.2 cal3 cnEnv c3Order c3MdSell c3Pf
      day1 c3Pos rfl rfl (by decide) rfl (by decide) rfl (by decide)
      (by decide)

/-- C4: for a board whose rule-table entry carries bands `(up, down)`,
`get_price_limits` returns `upper = round(prev*(1+up), 2)` and
`lower = round(prev*(1-down), 2)` outside the new-listing grace window and
`has_limit = false` inside it; for a board whose entry is the no-band pair
it returns `has_limit = false`. -/
theorem price_limit_bands_and_grace :
    ∀ (cal : Calendar) (market : String) (prev : ℚ) (board : String)
      (si : Option StockInfo) (cd : Option PyDateTime) (up down : ℚ),
    ((load_price_limit_rules market).find? (fun kv => kv.1 == board) =
        some (board, some (up, down)) →
      (is_ipo_exception cal si cd board = false →
        get_price_limits cal market prev board si cd =
          .ok ⟨some (round2 (prev * (1 + up))),
               some (round2 (prev * (1 - down))), true⟩)
      ∧ (is_ipo_exception cal si cd board = true →
        get_price_limits cal market prev board si cd =
          .ok ⟨none, none, false⟩))
    ∧ ((load_price_limit_rules market).find? (fun kv => kv.1 == board) =
        some (board, none) →
      get_price_limits cal market prev board si cd =
        .ok ⟨none, none, false⟩) := by
  intro cal market prev board si cd up down
  constructor
  · intro h
    constructor
    · intro hipo
      unfold get_price_limits
      simp [h, hipo]
    · intro hipo
      unfold get_price_limits
      simp [h, hipo]
  · intro h
    unfold get_price_limits
    simp [h]

/-- Witness for C4: CN main board at prev close 10 (bands 11/9), a GEM
stock inside its five-trading-day grace window, and the band-free HK main
board. -/
theorem price_limit_bands_and_grace_witness :
    get_price_limits cal3 "CN" 10 "MAIN" none none =
      .ok ⟨some 11, some 9, true⟩
    ∧ get_price_limits cal3 "CN" 10 "GEM" (some c4Si) (some day1) =
      .ok ⟨none, none, false⟩
    ∧ get_price_limits cal3 "HK" 10 "MAIN" none none =
      .ok ⟨none, none, false⟩ := by
  refine ⟨?_, ?_, ?_⟩
  · have h := ((price_limit_bands_and_grace cal3 "CN" 10 "MAIN" none none
      (10/100) (10/100)).1 (by decide)).1 (by decide)
    rw [h]
    decide
  · exact ((price_limit_bands_and_grace cal3 "CN" 10 "GEM" (some c4Si)
      (some day1) (20/100) (20/100)).1 (by decide)).2 (by decide)
  · exact (price_limit_bands_and_grace cal3 "HK" 10 "MAIN" none none 0
      0).2 (by decide)

/-- C10 (amended): a board string absent from the CN table is silently
given the main-board ±10% bands; but in the US market, whose table lacks
the `"MAIN"` fallback key, the same lookup raises `KeyError`. -/
theorem unknown_board_falls_back_to_main :
    ∀ (cal : Calendar) (prev : ℚ) (board : String) (si : Option StockInfo)
      (cd : Option PyDateTime),
    ((load_price_limit_rules "CN").find? (fun kv => kv.1 == board) = none →
      is_ipo_exception cal si cd "MAIN" = false →
      get_price_limits cal "CN" prev board si cd =
        .ok ⟨some (round2 (prev * (1 + 10/100))),
             some (round2 (prev * (1 - 10/100))), true⟩)
    ∧ ((load_price_limit_rules "US").find? (fun kv => kv.1 == board) = none →
      get_price_limits cal "US" prev board si cd = .error "KeyError") := by
  intro cal prev board si cd
  constructor
  · intro h hipo
    unfold get_price_limits
    simp only [h, Option.isSome_none, Bool.false_eq_true, if_false]
    have hM : (load_price_limit_rules "CN").find? (fun kv => kv.1 == "MAIN") =
        some ("MAIN", some (10/100, 10/100)) := rfl
    rw [hM]
    simp [hipo]
  · intro h
    unfold get_price_limits
    simp only [h, Option.isSome_none, Bool.false_eq_true, if_false]
    have hM : (load_price_limit_rules "US").find? (fun kv => kv.1 == "MAIN") =
        none := rfl
    rw [hM]

/-- Counterexample to C10 as stated: with the US rule table the silent
`"MAIN"` substitution itself misses, so `get_price_limits` raises
`KeyError` rather than "not failing" for an unknown board. -/
theorem unknown_board_us_keyerror :
    get_price_limits ([] : Calendar) "US" 10 "US_NYSE" none none =
      .error "KeyError" := by
  decide

/-- Witness for C10 at the unknown board string `"FOO"`. -/
theorem unknown_board_falls_back_to_main_witness :
    get_price_limits cal3 "CN" 20 "FOO" none none =
      .ok ⟨some (round2 (20 * (1 + 10/100))), some (round2 (20 * (1 - 10/100))),
           true⟩
    ∧ get_price_limits cal3 "US" 20 "BAR" none none = .error "KeyError" := by
  constructor
  · exact (unknown_board_falls_back_to_main cal3 20 "FOO" none none).1
      (by decide) (by decide)
  · exact (unknown_board_falls_back_to_main cal3 20 "BAR" none none).2
      (by decide)

/-- C1 (amended): in `TradingEngine._execute_order` a transition is gated by
TradingRulesValidator and then MatchingEngine (RiskManager is not part of
the path); whenever a gate fails the portfolio, trade list and equity
history are unchanged and the order is recorded as rejected. -/
theorem execute_order_gate_failure :
    ∀ (cal : Calendar) (mp : MatchParams) (st : EngineState) (order : Order)
      (md : MarketData) (cur : PyDateTime) (res : Option Trade)
      (st' : EngineState),
    execute_order cal mp st order md cur = .ok (res, st') →
    res = none →
    st'.portfolioSt = st.portfolioSt ∧ st'.trades = st.trades ∧
    st'.orders = st.orders ++ [{ order with status := .rejected }] ∧
    st'.equityHistory = st.equityHistory := by
  intro cal mp st order md cur res st' hex hres
  subst hres
  unfold execute_order at hex
  cases hv : validate_order cal st.environment order md st.portfolioSt cur
      none with
  | error e =>
    rw [hv] at hex
    cases hex
  | ok vr =>
    rw [hv] at hex
    by_cases hvalid : vr.isValid = true
    · simp only [hvalid, Bool.not_true, Bool.false_eq_true, if_false] at hex
      cases hm : match_order cal st.environment mp order md none with
      | error e =>
        rw [hm] at hex
        cases hex
      | ok t =>
        rw [hm] at hex
        cases t with
        | none =>
          simp only [Except.ok.injEq, Prod.mk.injEq] at hex
          obtain ⟨-, h2⟩ := hex
          subst h2
          simp
        | some trade =>
          simp only [Except.ok.injEq, Prod.mk.injEq] at hex
          exact absurd hex.1 (by simp)
    · simp only [Bool.not_eq_true] at hvalid
      simp only [hvalid, Bool.not_false, if_true] at hex
      simp only [Except.ok.injEq, Prod.mk.injEq] at hex
      obtain ⟨-, h2⟩ := hex
      subst h2
      simp

/-- Witness for C1 at a concrete failing gate: a suspended bar rejects the
buy order and leaves the engine state unchanged apart from the recorded
rejected order. -/
theorem execute_order_gate_failure_witness :
    gfStAfter.portfolioSt = gfSt.portfolioSt ∧
    gfStAfter.trades = gfSt.trades ∧
    gfStAfter.orders = gfSt.orders ++ [{ gfOrder with status := .rejected }] ∧
    gfStAfter.equityHistory = gfSt.equityHistory :=
  execute_order_gate_failure cal3 {} gfSt gfOrder gfMd day0 none gfStAfter
    (by decide!) rfl

/-- Counterexample to C1 as stated: a valid risk configuration whose
RiskManager check rejects the very order the engine generates, yet the
engine fills it and mutates the portfolio — the transition is not gated by
RiskManager at all. -/
theorem risk_gate_not_consulted :
    riskConfigValid c1Cfg = true
    ∧ check_order_risk c1Cfg ⟨"000001", 9900, 501/50⟩
        { totalEquity := 100000, cash := 100000 } = .rejected
    ∧ c1OrderQty = 9900
    ∧ c1Filled = true
    ∧ c1CashAfter < 100000 := by
  refine ⟨by decide!, by decide!, by decide!, by decide!, by decide!⟩

/-- C2 (amended): `total_equity = cash + Σ position.market_value` holds of
every portfolio and of every equity-curve record the run loop emits; but a
matched buy settles in full (`cash := cash - total_cost`) with no
nonnegativity gate, so cash can go negative (see the counterexample). -/
theorem equity_identity_and_full_settlement :
    (∀ p : PortfolioSt, p.total_equity = p.cash + p.market_value)
    ∧ (∀ (ocal vcal : Calendar) (mp : MatchParams) (symbol board : String)
        (st : EngineState) (rows : List BarRow) (stF : EngineState)
        (recs : List EquityRecord),
        run_loop ocal vcal mp symbol board st rows = .ok (stF, recs) →
        ∀ r ∈ recs, r.equity = r.cash + r.positionValue)
    ∧ (∀ (st : EngineState) (trade : Trade) (md : MarketData)
        (cur : PyDateTime), trade.side = .buy →
        (update_portfolio st trade md cur).portfolioSt.cash =
          st.portfolioSt.cash - trade.total_cost) := by
  refine ⟨fun p => rfl, ?_, ?_⟩
  · intro ocal vcal mp symbol board st rows
    induction rows generalizing st with
    | nil =>
      intro stF recs h
      simp only [run_loop, Except.ok.injEq, Prod.mk.injEq] at h
      obtain ⟨-, h2⟩ := h
      subst h2
      intro r hr
      cases hr
    | cons row rest ih =>
      intro stF recs h
      simp only [run_loop] at h
      split at h
      · exact ih st stF recs h
      · split at h
        · cases h
        · split at h
          · cases h
          · simp only [Except.ok.injEq, Prod.mk.injEq] at h
            obtain ⟨-, h2⟩ := h
            subst h2
            intro r hr
            cases hr with
            | head => rfl
            | tail _ hr' =>
              rename_i st1 rest1 heq1 stF1 recs1 heq2
              exact ih _ _ _ heq2 r hr'
  · intro st trade md cur hside
    unfold update_portfolio
    simp [hside]

/-- Witness for C2: the record of a concrete one-bar all-hold run satisfies
the equity identity, and a concrete buy deducts exactly its settlement. -/
theorem equity_identity_and_full_settlement_witness :
    c2wRec.equity = c2wRec.cash + c2wRec.positionValue
    ∧ (update_portfolio gfSt c2wTrade gfMd day0).portfolioSt.cash =
        gfSt.portfolioSt.cash - c2wTrade.total_cost := by
  constructor
  · exact equity_identity_and_full_settlement.2.1 cal3 cal3 {} "600000"
      "MAIN" (initEngine cnEnv 1000) [holdRow] c2wSt [c2wRec] (by decide!)
      c2wRec (List.mem_singleton.mpr rfl)
  · exact equity_identity_and_full_settlement.2.2 gfSt c2wTrade gfMd day0 rfl

/-- Counterexample to C2 as stated: the sized buy at close 99.94 passes the
pre-fee balance check, is matched, and its settlement (slippage, rounding,
commission and transfer fee exceed the reserved buffer) drives cash to
-21.9968 < 0. -/
theorem matched_buy_drives_cash_negative :
    c2Filled = true ∧ c2CashAfter < 0 := by
  exact ⟨by decide!, by decide!⟩

/-- A portfolio with no positions has `total_equity = cash`. -/
lemma total_equity_of_no_positions (p : PortfolioSt)
    (h : p.positions = []) : p.total_equity = p.cash := by
  unfold PortfolioSt.total_equity PortfolioSt.market_value
  rw [h]
  simp

/-- A hold signal on an engine with no positions only records the day's
equity. -/
lemma process_signal_hold_no_positions (cal : Calendar) (mp : MatchParams)
    (st : EngineState) (sig : Signal) (md : MarketData) (cur : PyDateTime)
    (ha : sig.action = 0) (hpos : st.portfolioSt.positions = []) :
    process_signal cal mp st sig md cur =
      .ok (none,
        { st with
          equityHistory :=
            histSet st.equityHistory cur st.portfolioSt.total_equity }) := by
  unfold process_signal update_position_prices
  have hget : st.portfolioSt.get_position md.symbol = none := by
    unfold PortfolioSt.get_position
    rw [hpos]
    rfl
  rw [hget, ha]
  simp

/-- Invariant of the run loop under an all-hold signal series: cash,
positions, trades and orders are untouched, and every emitted record's
equity and cash equal the starting cash. -/
lemma run_loop_all_hold (ocal vcal : Calendar) (mp : MatchParams)
    (symbol board : String) :
    ∀ (rows : List BarRow) (st stF : EngineState)
      (recs : List EquityRecord),
    (∀ r ∈ rows, r.signal = 0) →
    st.portfolioSt.positions = [] →
    run_loop ocal vcal mp symbol board st rows = .ok (stF, recs) →
    stF.portfolioSt.cash = st.portfolioSt.cash ∧
    stF.portfolioSt.positions = [] ∧
    stF.trades = st.trades ∧ stF.orders = st.orders ∧
    ∀ r ∈ recs, r.equity = st.portfolioSt.cash ∧
      r.cash = st.portfolioSt.cash := by
  intro rows
  induction rows with
  | nil =>
    intro st stF recs hall hpos h
    simp only [run_loop, Except.ok.injEq, Prod.mk.injEq] at h
    obtain ⟨h1, h2⟩ := h
    subst h1
    subst h2
    exact ⟨rfl, hpos, rfl, rfl, fun r hr => absurd hr (List.not_mem_nil r)⟩
  | cons row rest ih =>
    intro st stF recs hall hpos h
    have hsig : row.signal = 0 := hall row (List.mem_cons_self _ _)
    simp only [run_loop] at h
    split at h
    · exact ih st stF recs (fun r hr => hall r (List.mem_cons_of_mem _ hr))
        hpos h
    · rw [process_signal_hold_no_positions vcal mp st _ _ row.date hsig hpos]
        at h
      set st2 :=
        { st with
          equityHistory :=
            histSet st.equityHistory row.date st.portfolioSt.total_equity }
        with hst2
      split at h
      · cases h
      · rename_i fst1 st1' heq1
        injection heq1 with hpair
        injection hpair with hfst hst
        subst hst
        split at h
        · cases h
        · rename_i stF1 recs1 heq2
          simp only [Except.ok.injEq, Prod.mk.injEq] at h
          obtain ⟨h1, h2⟩ := h
          subst h1
          subst h2
          obtain ⟨g1, g2, g3, g4, g5⟩ := ih st2 stF1 recs1
            (fun r hr => hall r (List.mem_cons_of_mem _ hr)) hpos heq2
          refine ⟨g1, g2, g3, g4, ?_⟩
          intro r hr
          cases hr with
          | head =>
            constructor
            · show st2.portfolioSt.total_equity = st.portfolioSt.cash
              exact total_equity_of_no_positions st.portfolioSt hpos
            · rfl
          | tail _ hr1 => exact g5 r hr1

/-- C6: a run whose signal series is all-hold produces no trades, no
orders, and leaves cash and total equity at the initial capital; every
equity-curve record equals the initial capital. -/
theorem all_hold_run_round_trip :
    ∀ (ocal vcal : Calendar) (mp : MatchParams) (symbol board : String)
      (env : TradingEnvironment) (capital : ℚ) (rows : List BarRow)
      (stF : EngineState) (recs : List EquityRecord),
    (∀ r ∈ rows, r.signal = 0) →
    run_loop ocal vcal mp symbol board (initEngine env capital) rows =
      .ok (stF, recs) →
    stF.trades = [] ∧ stF.orders = [] ∧
    stF.portfolioSt.cash = capital ∧
    stF.portfolioSt.total_equity = capital ∧
    ∀ r ∈ recs, r.equity = capital := by
  intro ocal vcal mp symbol board env capital rows stF recs hall hrun
  obtain ⟨h1, h2, h3, h4, h5⟩ := run_loop_all_hold ocal vcal mp symbol board
    rows (initEngine env capital) stF recs hall rfl hrun
  refine ⟨h3, h4, h1, ?_, fun r hr => (h5 r hr).1⟩
  rw [total_equity_of_no_positions stF.portfolioSt h2]
  exact h1

/-- Witness for C6: a concrete two-bar all-hold run started with 5000. -/
theorem all_hold_run_round_trip_witness :
    c6StF.trades = [] ∧ c6StF.orders = [] ∧
    c6StF.portfolioSt.cash = 5000 ∧
    c6StF.portfolioSt.total_equity = 5000 ∧
    (⟨day0, 5000, 5000, 0⟩ : EquityRecord).equity = 5000 := by
  have h := all_hold_run_round_trip cal3 cal3 {} "600000" "MAIN" cnEnv 5000
    c6Rows c6StF c6Recs (by decide!) (by decide!)
  exact ⟨h.1, h.2.1, h.2.2.1, h.2.2.2.1, h.2.2.2.2 _ (by decide!)⟩

/-- C5 (amended): the code's Sortino denominator is the standard deviation
of the NEGATIVE RAW returns — it does not depend on the risk-free rate —
and the ratio returns 0 (not a division error) whenever that deviation is
zero or below the 1e-10 epsilon (equivalently, its square is below
1e-20). -/
theorem sortino_raw_downside_and_guard :
    (∀ (returns : List ℚ) (rf v : ℚ),
      sampleVarQ (returns.filter (fun r => r < 0)) = some v →
      (v = 0 ∨ v < 1/10^20) →
      sortinoOutcome returns rf = .zero)
    ∧ (∀ (returns : List ℚ) (rf rf' n v n' v' : ℚ),
      sortinoOutcome returns rf = .value n v →
      sortinoOutcome returns rf' = .value n' v' →
      v = v') := by
  constructor
  · intro returns rf v hv hguard
    unfold sortinoOutcome
    by_cases hlen : returns.length < 2
    · simp [hlen]
    · rw [if_neg hlen]
      by_cases hd : (returns.filter (fun r => r < 0)).length = 0
      · simp [hd]
      · rw [if_neg hd]
        simp only [hv]
        rw [if_pos hguard]
  · intro returns rf rf' n v n' v' h1 h2
    unfold sortinoOutcome at h1 h2
    by_cases hlen : returns.length < 2
    · rw [if_pos hlen] at h1
      cases h1
    · rw [if_neg hlen] at h1 h2
      by_cases hd : (returns.filter (fun r => r < 0)).length = 0
      · rw [if_pos hd] at h1
        cases h1
      · rw [if_neg hd] at h1 h2
        cases hw : sampleVarQ (returns.filter (fun r => r < 0)) with
        | none =>
          simp only [hw] at h1
          cases h1
        | some w =>
          simp only [hw] at h1 h2
          by_cases hg : w = 0 ∨ w < 1/10^20
          · rw [if_pos hg] at h1
            cases h1
          · rw [if_neg hg] at h1 h2
            injection h1 with hn1 hv1
            injection h2 with hn2 hv2
            rw [← hv1, ← hv2]

/-- Witness for C5: a series whose two negative returns are equal has
downside variance 0 and yields 0; and the denominator agrees across two
different risk-free rates on a series with distinct negative returns. -/
theorem sortino_raw_downside_and_guard_witness :
    sortinoOutcome [-1, -1, 5] (3/100) = .zero ∧ (1/2 : ℚ) = 1/2 := by
  constructor
  · exact sortino_raw_downside_and_guard.1 [-1, -1, 5] (3/100) 0 (by decide!)
      (Or.inl rfl)
  · exact sortino_raw_downside_and_guard.2 [1, -1, -2] 0 252 (-2/3) (1/2)
      (-5/3) (1/2) (by decide!) (by decide!)

/-- Counterexample to C5 as stated: on the series
`[0.0001, -0.01, -0.02]` with annual risk-free rate 0.03 the code's
denominator (variance of the raw negatives, 1/20000) differs from the
spec's denominator (variance of the negative excess returns,
30301/300000000), because the return 0.0001 is positive yet its excess is
negative; the two readings give different Sortino outcomes. -/
theorem sortino_excess_downside_refuted :
    sortinoOutcome [1/10000, -1/100, -1/50] (3/100) =
      .value (-353/35000) (1/20000)
    ∧ sortinoOutcomeSpecClaim [1/10000, -1/100, -1/50] (3/100) =
      .value (-353/35000) (30301/300000000)
    ∧ sortinoOutcome [1/10000, -1/100, -1/50] (3/100) ≠
      sortinoOutcomeSpecClaim [1/10000, -1/100, -1/50] (3/100) := by
  exact ⟨by decide!, by decide!, by decide!⟩

/-- `_update_portfolio` never touches the order history. -/
lemma update_portfolio_orders (st : EngineState) (trade : Trade)
    (md : MarketData) (cur : PyDateTime) :
    (update_portfolio st trade md cur).orders = st.orders := by
  unfold update_portfolio
  by_cases h1 : trade.side = .buy
  · simp [h1]
  · by_cases h2 : trade.side = .sell <;> simp [h1, h2]

/-- `_execute_order` always appends exactly the submitted order (with its
final status) to the order history. -/
lemma execute_order_appends_order (cal : Calendar) (mp : MatchParams)
    (st : EngineState) (order : Order) (md : MarketData) (cur : PyDateTime)
    (res : Option Trade) (st' : EngineState)
    (hex : execute_order cal mp st order md cur = .ok (res, st')) :
    ∃ os, st'.orders = st.orders ++ [{ order with status := os }] := by
  unfold execute_order at hex
  cases hv : validate_order cal st.environment order md st.portfolioSt cur
      none with
  | error e =>
    rw [hv] at hex
    cases hex
  | ok vr =>
    rw [hv] at hex
    by_cases hvalid : vr.isValid = true
    · simp only [hvalid, Bool.not_true, Bool.false_eq_true, if_false] at hex
      cases hm : match_order cal st.environment mp order md none with
      | error e =>
        rw [hm] at hex
        cases hex
      | ok t =>
        rw [hm] at hex
        cases t with
        | none =>
          simp only [Except.ok.injEq, Prod.mk.injEq] at hex
          obtain ⟨-, h2⟩ := hex
          subst h2
          exact ⟨.rejected, rfl⟩
        | some trade =>
          simp only [Except.ok.injEq, Prod.mk.injEq] at hex
          obtain ⟨-, h2⟩ := hex
          subst h2
          exact ⟨.filled, by rw [update_portfolio_orders]⟩
    · simp only [Bool.not_eq_true] at hvalid
      simp only [hvalid, Bool.not_false, if_true] at hex
      simp only [Except.ok.injEq, Prod.mk.injEq] at hex
      obtain ⟨-, h2⟩ := hex
      subst h2
      exact ⟨.rejected, rfl⟩

/-- C8: the buy-sizing rule hardcodes a 100-share lot — every order a buy
signal creates has a quantity that is a positive multiple of 100, for every
market and fee schedule — even though `LotSizeRules` configures other lot
sizes (e.g. 200 shares for HK symbol 01810). -/
theorem buy_orders_sized_in_hundreds :
    get_lot_size "01810" "HK" = 200
    ∧ ∀ (cal : Calendar) (mp : MatchParams) (st : EngineState)
        (sig : Signal) (md : MarketData) (cur : PyDateTime)
        (res : Option Trade) (st' : EngineState),
      process_buy_signal cal mp st sig md cur = .ok (res, st') →
      ∀ o ∈ st'.orders, o ∉ st.orders →
        o.quantity % 100 = 0 ∧ 0 < o.quantity := by
  constructor
  · decide!
  · intro cal mp st sig md cur res st' h o ho hno
    unfold process_buy_signal at h
    cases hhas : st.portfolioSt.has_position sig.symbol with
    | true =>
      simp only [hhas, if_true] at h
      simp only [Except.ok.injEq, Prod.mk.injEq] at h
      obtain ⟨-, h2⟩ := h
      subst h2
      exact absurd ho hno
    | false =>
      simp only [hhas, Bool.false_eq_true, if_false] at h
      split at h
      · simp only [Except.ok.injEq, Prod.mk.injEq] at h
        obtain ⟨-, h2⟩ := h
        subst h2
        exact absurd ho hno
      · split at h
        · simp only [Except.ok.injEq, Prod.mk.injEq] at h
          obtain ⟨-, h2⟩ := h
          subst h2
          exact absurd ho hno
        · rename_i husable hq
          obtain ⟨os, hos⟩ := execute_order_appends_order _ _ _ _ _ _ _ _ h
          rw [hos] at ho
          rcases List.mem_append.mp ho with hin | hin
          · exact absurd hin hno
          · rw [List.mem_singleton] at hin
            subst hin
            refine ⟨Int.mul_emod_left _ _, lt_of_not_le hq⟩

/-- Witness for C8: the concrete buy signal at price 10 with 100000 cash is
sized to 9900 shares — a positive multiple of 100. -/
theorem buy_orders_sized_in_hundreds_witness :
    c8Order.quantity % 100 = 0 ∧ 0 < c8Order.quantity :=
  buy_orders_sized_in_hundreds.2 cal3 {} gfSt c8Sig gfMd day0 none c8StAfter
    (by decide!) c8Order (by decide!) (by decide!)

/-- C7: grid search over an `m × n` two-parameter grid records exactly
`m * n` entries (a combination whose backtest raises is caught and recorded
with score `-inf`, here `none`, rather than aborting), and the heatmap has
exactly `n` rows (sorted second-parameter values) of `m` columns (sorted
first-parameter values); every failed entry's score is `-inf`/null. -/
theorem grid_search_shape :
    ∀ (xs ys : List ℚ) (runner : ℚ × ℚ → Except String (List (String × ℚ)))
      (metric : String) (okC : List (String × ℚ) → Bool),
    (grid_all_results xs ys runner metric okC).length = xs.length * ys.length
    ∧ (grid_heatmap xs ys (grid_all_results xs ys runner metric okC)).length
        = ys.length
    ∧ (∀ row ∈ grid_heatmap xs ys (grid_all_results xs ys runner metric okC),
        row.length = xs.length)
    ∧ (∀ e ∈ grid_all_results xs ys runner metric okC,
        e.failed = true → e.score = none) := by
  intro xs ys runner metric okC
  have hcomb : (grid_combinations xs ys).length = xs.length * ys.length := by
    unfold grid_combinations
    induction xs with
    | nil => simp
    | cons x t ih =>
      simp only [List.flatMap_cons, List.length_append, List.length_map, ih,
        List.length_cons]
      ring
  refine ⟨?_, ?_, ?_, ?_⟩
  · unfold grid_all_results
    rw [List.length_map, hcomb]
  · unfold grid_heatmap
    rw [List.length_map, List.length_mergeSort]
  · intro row hrow
    unfold grid_heatmap at hrow
    rw [List.mem_map] at hrow
    obtain ⟨y, hy, hrow⟩ := hrow
    subst hrow
    rw [List.length_map, List.length_mergeSort]
  · intro e he hf
    unfold grid_all_results at he
    rw [List.mem_map] at he
    obtain ⟨p, hp, he⟩ := he
    subst he
    revert hf
    cases hrp : runner p with
    | error err => intro _; rfl
    | ok ms =>
      intro hf
      simp at hf

/-- Witness for C7 on the concrete 1×1 grid with an always-raising
runner. -/
theorem grid_search_shape_witness :
    (grid_all_results [1] [3] c7Runner "m" c7Ok).length = 1 * 1
    ∧ ([(none : Option ℚ)]).length = 1
    ∧ ({ px := 1, py := 3, score := none, failed := true } : GridEntry).score
        = none := by
  have h := grid_search_shape [1] [3] c7Runner "m" c7Ok
  exact ⟨h.1, h.2.2.1 [none] (by decide!), h.2.2.2 _ (by decide!) rfl⟩

/-- C9: `BacktestOrchestrator.__init__` always forwards the `risk_config=`
keyword to the `TradingEngine` constructor, whose parameter list does not
accept it, so constructing the orchestrator with any (non-None) risk
configuration raises `TypeError` before any bar is processed. -/
theorem orchestrator_risk_config_type_error :
    ∀ rc : RiskConfigL,
      orchestrator_construct (some rc) = .error "TypeError" := by
  intro rc
  rfl

/-- Witness for C9 at a concrete risk configuration. -/
theorem orchestrator_risk_config_type_error_witness :
    orchestrator_construct (some c1Cfg) = .error "TypeError" :=
  orchestrator_risk_config_type_error c1Cfg
